import Mathlib

/-!
Shallow embedding of the Budget Model of `src/app/components/FinanceSheet.tsx`
(a client-side personal-finance spreadsheet).  JavaScript numbers are modelled
as exact rationals (`ℚ`); JavaScript records `Record<MonthKey, number>` are
modelled as `Month → Option ℚ`, where `none` models a missing key (JSON data
restored from `localStorage` may miss month keys; `totalFor` in the source
guards with `?? 0`).  Stateful React `setRows`/`setCurrency` updates are
modelled as pure functions `BudgetState → BudgetState`.
-/

namespace FinanceSheet

/-- `MonthKey`: the twelve fixed month keys (source lines 6–21). -/
inductive Month where
  | jan | feb | mar | apr | may | jun | jul | aug | sep | oct | nov | dec
  deriving DecidableEq, Repr, Fintype

/-- The 0-based position of a month inside the `MONTHS` array, as used by the
`reduce` index in `createBlankValues`. -/
def Month.index : Month → Nat
  | .jan => 0 | .feb => 1 | .mar => 2 | .apr => 3 | .may => 4 | .jun => 5
  | .jul => 6 | .aug => 7 | .sep => 8 | .oct => 9 | .nov => 10 | .dec => 11

/-- The `MONTHS` constant: the twelve keys in calendar order (source line 6). -/
def MONTHS : List Month :=
  [.jan, .feb, .mar, .apr, .may, .jun, .jul, .aug, .sep, .oct, .nov, .dec]

/-- `CategoryType` (source line 23). -/
inductive CategoryType where
  | income | expense | savings
  deriving DecidableEq, Repr, Fintype

/-- A month-indexed value record.  `none` models a key that is absent from the
underlying JavaScript object. -/
def Values : Type := Month → Option ℚ

/-- `SheetRow` (source lines 25–30). -/
structure SheetRow where
  id : String
  label : String
  type : CategoryType
  values : Values

/-- The in-memory model state: the `rows` and `currency` React state cells of
the `FinanceSheet` component (source lines 121–122), which is also the
`PersistedState` shape (source lines 32–35). -/
structure BudgetState where
  rows : List SheetRow
  currency : String

/-- `createZeroValues` (source lines 442–447): every month key set to `0`. -/
def createZeroValues : Values := fun _ => some 0

/-- `createBlankValues base variation` (source lines 105–111): for month index
`i`, `drift = ((i % 2 === 0 ? -1 : 1) * variation) / 2` and the stored value is
`Math.max(0, Math.round(base + drift))`.  `Math.round` rounds half-up, which is
Mathlib `round` on `ℚ`. -/
def createBlankValues (base variation : ℚ) : Values := fun m =>
  let drift := ((if m.index % 2 = 0 then (-1 : ℚ) else 1) * variation) / 2
  some ((max 0 (round (base + drift)) : ℤ) : ℚ)

/-- `defaultRows` (source lines 47–96): the built-in 8-row template. -/
def defaultRows : List SheetRow :=
  [ { id := "salary", label := "Primary Income", type := .income,
      values := createBlankValues 5500 0 },
    { id := "side-income", label := "Side Income", type := .income,
      values := createBlankValues 650 0 },
    { id := "rent", label := "Housing & Rent", type := .expense,
      values := createBlankValues 1850 20 },
    { id := "groceries", label := "Groceries", type := .expense,
      values := createBlankValues 580 60 },
    { id := "transport", label := "Transportation", type := .expense,
      values := createBlankValues 220 30 },
    { id := "subscriptions", label := "Subscriptions", type := .expense,
      values := createBlankValues 95 5 },
    { id := "emergency-fund", label := "Emergency Fund", type := .savings,
      values := createBlankValues 400 50 },
    { id := "retirement", label := "Retirement", type := .savings,
      values := createBlankValues 650 20 } ]

/-- `cloneRows` (source lines 98–103) deep-copies each row and its values
record; on immutable mathematical values a deep copy is the identity. -/
def cloneRows (rows : List SheetRow) : List SheetRow := rows

/-- `sumRecord` (source lines 449–451): `Object.values(values)` lists the
values of the keys that are present, and `reduce` sums them. -/
def sumRecord (values : Values) : ℚ := (MONTHS.filterMap values).sum

/-- `totalFor` (source lines 453–457): sum of `row.values[month] ?? 0` over the
rows of the given type, in row order. -/
def totalFor (month : Month) (rows : List SheetRow) (type : CategoryType) : ℚ :=
  ((rows.filter (fun row => decide (row.type = type))).map
    (fun row => (row.values month).getD 0)).sum

/-- The `income` record of `monthlyTotals` (source lines 147–166). -/
def monthlyIncome (rows : List SheetRow) (month : Month) : ℚ :=
  totalFor month rows .income

/-- The `expense` record of `monthlyTotals` (source lines 147–166). -/
def monthlyExpense (rows : List SheetRow) (month : Month) : ℚ :=
  totalFor month rows .expense

/-- The `savings` record of `monthlyTotals` (source lines 147–166). -/
def monthlySavings (rows : List SheetRow) (month : Month) : ℚ :=
  totalFor month rows .savings

/-- The `net` record of `monthlyTotals` (source line 156):
`income - expense - savings` for each month. -/
def monthlyNet (rows : List SheetRow) (month : Month) : ℚ :=
  monthlyIncome rows month - monthlyExpense rows month - monthlySavings rows month

/-- Sum of a full 12-key record, as `sumRecord` computes on the records built
by `monthlyTotals` (every month key present there). -/
def annualOf (f : Month → ℚ) : ℚ := (MONTHS.map f).sum

/-- `annualTotals.income` (source lines 168–174). -/
def annualIncome (rows : List SheetRow) : ℚ := annualOf (monthlyIncome rows)

/-- `annualTotals.expense` (source lines 168–174). -/
def annualExpense (rows : List SheetRow) : ℚ := annualOf (monthlyExpense rows)

/-- `annualTotals.savings` (source lines 168–174). -/
def annualSavings (rows : List SheetRow) : ℚ := annualOf (monthlySavings rows)

/-- `annualTotals.net` (source lines 168–174). -/
def annualNet (rows : List SheetRow) : ℚ := annualOf (monthlyNet rows)

/-- `savingsRate` (source lines 176–178): the JavaScript conditional
`annualTotals.income ? (savings / income) * 100 : 0`; a number is falsy exactly
when it is `0` (`NaN` cannot arise for these exact sums). -/
def savingsRate (rows : List SheetRow) : ℚ :=
  if annualIncome rows = 0 then 0 else (annualSavings rows / annualIncome rows) * 100

/-- The `{ label, total }` objects built inside `highestExpense`
(source lines 183–186). -/
structure LabeledTotal where
  label : String
  total : ℚ
  deriving DecidableEq, Repr

/-- The mapped list inside `highestExpense` (source lines 181–186): the
expense rows, in row order, reduced to label and annual total. -/
def expenseEntries (rows : List SheetRow) : List LabeledTotal :=
  (rows.filter (fun row => decide (row.type = .expense))).map
    (fun row => { label := row.label, total := sumRecord row.values })

/-- The comparator `(a, b) => b.total - a.total` of source line 187: `a` is
placed no later than `b` exactly when `b.total ≤ a.total` (descending order,
stable on ties — JavaScript `Array.prototype.sort` is stable). -/
def expenseLE (a b : LabeledTotal) : Bool := decide (b.total ≤ a.total)

/-- `highestExpense` (source lines 180–188): stable-sort the expense entries
descending by total and take element `[0]` (`none` when there are none). -/
def highestExpense (rows : List SheetRow) : Option LabeledTotal :=
  ((expenseEntries rows).mergeSort expenseLE).head?

/-! ### Numeric input parsing

`handleChange` (source line 191) parses the raw `<input>` text with
`Number.parseFloat`.  We model `parseFloat` exactly on ideal numbers: leading
whitespace is skipped, then the longest prefix matching
`[+-]? (Infinity | digits [. digits?] | . digits) ([eE] [+-]? digits)?`
is evaluated; no valid prefix gives `NaN`.  `Infinity` and `NaN` are both
non-finite, which is all `Number.isFinite` distinguishes. -/

/-- Result of `Number.parseFloat`: `NaN`, an infinity, or a finite number. -/
inductive ParseResult where
  | nan
  | infinite
  | finite (q : ℚ)
  deriving DecidableEq, Repr

/-- The natural number denoted by a digit string (most significant first). -/
def digitsToNat (ds : List Char) : Nat :=
  ds.foldl (fun n c => 10 * n + (c.toNat - 48)) 0

/-- Parse an optional exponent part `([eE] [+-]? digits)` at the front of the
input; an `e`/`E` not followed by a digit is not part of the longest valid
prefix and contributes exponent `0`. -/
def parseExponent (cs : List Char) : ℤ :=
  match cs with
  | 'e' :: rest => parseSignedDigits rest
  | 'E' :: rest => parseSignedDigits rest
  | _ => 0
where
  parseSignedDigits (cs : List Char) : ℤ :=
    match cs with
    | '+' :: rest => parseDigits rest
    | '-' :: rest => - parseDigits rest
    | rest => parseDigits rest
  parseDigits (cs : List Char) : ℤ :=
    (digitsToNat (cs.takeWhile Char.isDigit) : ℤ)

/-- Parse an unsigned decimal literal `digits [. digits?] | . digits` with an
optional exponent; `none` when no such prefix exists. -/
def parseUnsigned (cs : List Char) : Option ℚ :=
  let intDigits := cs.takeWhile Char.isDigit
  let rest := cs.dropWhile Char.isDigit
  match rest with
  | '.' :: rest2 =>
    let fracDigits := rest2.takeWhile Char.isDigit
    let rest3 := rest2.dropWhile Char.isDigit
    if intDigits.isEmpty ∧ fracDigits.isEmpty then none
    else
      let mantissa : ℚ :=
        (digitsToNat intDigits : ℚ) +
          (digitsToNat fracDigits : ℚ) / (10 : ℚ) ^ fracDigits.length
      some (mantissa * (10 : ℚ) ^ parseExponent rest3)
  | _ =>
    if intDigits.isEmpty then none
    else some ((digitsToNat intDigits : ℚ) * (10 : ℚ) ^ parseExponent rest)

/-- Whitespace skipped by `parseFloat` (the ASCII `StrWhiteSpace` characters). -/
def isJsSpace (c : Char) : Bool :=
  c = ' ' ∨ c = '\t' ∨ c = '\n' ∨ c = '\r' ∨ c.toNat = 11 ∨ c.toNat = 12

/-- The body of `parseFloat` after the optional sign. -/
def parseFloatBody (sign : ℚ) (cs : List Char) : ParseResult :=
  if ("Infinity".toList).isPrefixOf cs then .infinite
  else
    match parseUnsigned cs with
    | some q => .finite (sign * q)
    | none => .nan

/-- `Number.parseFloat` on a raw string. -/
def jsParseFloat (s : String) : ParseResult :=
  match s.toList.dropWhile isJsSpace with
  | '+' :: rest => parseFloatBody 1 rest
  | '-' :: rest => parseFloatBody (-1) rest
  | rest => parseFloatBody 1 rest

/-- The value stored in the edited cell (source line 199):
`Number.isFinite(parsed) ? Math.max(parsed, 0) : 0`. -/
def storedValue (raw : String) : ℚ :=
  match jsParseFloat raw with
  | .finite parsed => max parsed 0
  | _ => 0

/-! ### State-changing operations -/

/-- `handleChange` (source lines 190–205), the `setCellValue` operation: map
over the rows; on the row whose `id` matches, rebuild the values record with
the targeted month key overridden (`{...row.values, [month]: ...}`); leave
every other row untouched. -/
def handleChange (s : BudgetState) (rowId : String) (month : Month)
    (value : String) : BudgetState :=
  { s with
    rows := s.rows.map fun row =>
      if row.id = rowId then
        { row with
          values := fun m => if m = month then some (storedValue value) else row.values m }
      else row }

/-- `addRow` (source lines 207–219): `window.prompt` returns `null` (modelled
`none`) on cancel or the typed string; a falsy result (`null` or `""`) aborts;
otherwise a fresh row with the trimmed label, the requested type and all-zero
values is appended.  The `nanoid(8)` fresh id is passed in as `newId`. -/
def addRow (s : BudgetState) (type : CategoryType) (label : Option String)
    (newId : String) : BudgetState :=
  match label with
  | none => s
  | some l =>
    if l = "" then s
    else
      { s with
        rows := s.rows ++
          [{ id := newId, label := l.trim, type := type, values := createZeroValues }] }

/-- `removeRow` (source lines 221–223): keep the rows whose id differs. -/
def removeRow (s : BudgetState) (rowId : String) : BudgetState :=
  { s with rows := s.rows.filter (fun row => decide (¬ row.id = rowId)) }

/-- `setCurrency` (source lines 122, 266): replace the currency code. -/
def setCurrencyOp (s : BudgetState) (code : String) : BudgetState :=
  { s with currency := code }

/-! ### Persistence -/

/-- What `window.localStorage` may hold under `STORAGE_KEY` once read and
`JSON.parse`d: the key can be absent (`getItem` returns `null`), the raw
string can fail to parse (`JSON.parse` throws), or it parses to a structure
in which the `rows` and `currency` fields are each present or absent. -/
inductive StoredContent where
  | malformed
  | parsed (rows : Option (List SheetRow)) (currency : Option String)

/-- The storage cell: `none` models an absent `STORAGE_KEY`. -/
def Storage : Type := Option StoredContent

/-- The restore effect (source lines 124–137) applied to the startup state
`s`: on an absent key or a parse failure (a warning is logged) the state is
left alone; otherwise `parsed.rows && parsed.currency` must both be truthy
(an absent field is `undefined`, falsy; an empty currency string is falsy;
an array, even empty, is truthy) before the persisted rows and currency
replace the state. -/
def restoreEffect (st : Storage) (s : BudgetState) : BudgetState :=
  match st with
  | none => s
  | some .malformed => s
  | some (.parsed rows? currency?) =>
    match rows?, currency? with
    | some rs, some c =>
      if c = "" then s else { rows := cloneRows rs, currency := c }
    | _, _ => s

/-- `reset` (source lines 225–230), the confirmed `resetToTemplate` path:
replace the rows with a deep copy of the template, reset the currency to
`"USD"`, and remove the persisted value. -/
def reset (_s : BudgetState) (_st : Storage) : BudgetState × Storage :=
  ({ rows := cloneRows defaultRows, currency := "USD" }, none)

/-- The startup state (source lines 121–122): a clone of the template with
currency `"USD"`. -/
def initialState : BudgetState :=
  { rows := cloneRows defaultRows, currency := "USD" }

/-- The states reachable by the component: the initial template state, a
restore from whatever the persistent store holds, and the five
presentation-facing operations. -/
inductive Reachable : BudgetState → Prop where
  | init : Reachable initialState
  | restore (st : Storage) {s : BudgetState} : Reachable s → Reachable (restoreEffect st s)
  | cell (rowId : String) (month : Month) (value : String) {s : BudgetState} :
      Reachable s → Reachable (handleChange s rowId month value)
  | add (type : CategoryType) (label : Option String) (newId : String) {s : BudgetState} :
      Reachable s → Reachable (addRow s type label newId)
  | remove (rowId : String) {s : BudgetState} :
      Reachable s → Reachable (removeRow s rowId)
  | resetOp (st : Storage) {s : BudgetState} :
      Reachable s → Reachable (reset s st).1
  | currency (code : String) {s : BudgetState} :
      Reachable s → Reachable (setCurrencyOp s code)

/-- The row invariant of spec §3: a values record carries exactly the 12 month
keys and every amount is non-negative. -/
def ValuesOk (v : Values) : Prop :=
  ∀ m : Month, ∃ q : ℚ, v m = some q ∧ 0 ≤ q

/-- The state invariant of spec §3 applied to every row. -/
def StateOk (s : BudgetState) : Prop :=
  ∀ row ∈ s.rows, ValuesOk row.values

instance : DecidablePred ValuesOk := fun v =>
  decidable_of_iff (∀ m : Month, ((v m).getD (-1)) ≥ 0) (by
    constructor
    · intro h m
      rcases hv : v m with _ | q
      · exact absurd (hv ▸ h m) (by norm_num)
      · exact ⟨q, rfl, by simpa [hv] using h m⟩
    · intro h m
      rcases h m with ⟨q, hq, hq0⟩
      simpa [hq] using hq0)

instance (s : BudgetState) : Decidable (StateOk s) :=
  List.decidableBAll _ s.rows

/-- Whether the rows held in the persistent store (when a `rows` field is
present at all) themselves satisfy the row invariant.  The restore effect
copies persisted rows verbatim, so this is the condition under which a
restore preserves the invariant. -/
def StorageRowsOk : Storage → Prop
  | some (.parsed (some rs) _) => ∀ row ∈ rs, ValuesOk row.values
  | _ => True

/-- The reachable states when every restore is fed persisted rows that
satisfy the row invariant (the payloads the component itself writes back). -/
inductive ReachableValid : BudgetState → Prop where
  | init : ReachableValid initialState
  | restore (st : Storage) (hst : StorageRowsOk st) {s : BudgetState} :
      ReachableValid s → ReachableValid (restoreEffect st s)
  | cell (rowId : String) (month : Month) (value : String) {s : BudgetState} :
      ReachableValid s → ReachableValid (handleChange s rowId month value)
  | add (type : CategoryType) (label : Option String) (newId : String) {s : BudgetState} :
      ReachableValid s → ReachableValid (addRow s type label newId)
  | remove (rowId : String) {s : BudgetState} :
      ReachableValid s → ReachableValid (removeRow s rowId)
  | resetOp (st : Storage) {s : BudgetState} :
      ReachableValid s → ReachableValid (reset s st).1
  | currency (code : String) {s : BudgetState} :
      ReachableValid s → ReachableValid (setCurrencyOp s code)

/-- A well-formed persisted payload (both fields present, `JSON.parse`
succeeds) whose single row carries a negative January amount. -/
def negativeRow : SheetRow :=
  { id := "bad", label := "Bad Data", type := .expense, values := fun _ => some (-5) }

/-- The state the restore effect produces from that payload. -/
def negativeState : BudgetState :=
  restoreEffect (some (.parsed (some [negativeRow]) (some "USD"))) initialState

/-! ## Theorems -/

/-- Every record produced by `createBlankValues` has all 12 keys, each holding
a non-negative amount (`Math.max(0, …)`). -/
lemma createBlankValues_ok (base variation : ℚ) :
    ValuesOk (createBlankValues base variation) := by
  intro m
  refine ⟨_, rfl, ?_⟩
  exact_mod_cast le_max_left (0 : ℤ) _

/-- Every record produced by `createZeroValues` has all 12 keys holding `0`. -/
lemma createZeroValues_ok : ValuesOk createZeroValues :=
  fun _ => ⟨0, rfl, le_refl 0⟩

/-- Every template row satisfies the row invariant. -/
lemma defaultRows_ok : ∀ row ∈ defaultRows, ValuesOk row.values := by
  intro row hrow
  simp only [defaultRows, List.mem_cons, List.not_mem_nil, or_false] at hrow
  rcases hrow with rfl | rfl | rfl | rfl | rfl | rfl | rfl | rfl <;>
    exact createBlankValues_ok _ _

/-- The value `handleChange` writes into the edited cell is never negative:
it is either the clamp `Math.max(parsed, 0)` or the fallback `0`. -/
lemma storedValue_nonneg (raw : String) : 0 ≤ storedValue raw := by
  unfold storedValue
  cases jsParseFloat raw with
  | finite q => exact le_max_right q 0
  | nan => exact le_refl 0
  | infinite => exact le_refl 0

/-- C2: for a row id present in the state, `setCellValue` stores `0` when the
input fails to parse or parses non-finite, stores `0` when the parsed value is
negative, stores the parsed value otherwise, and the stored value is never
negative; the targeted cell of every row carrying the id holds exactly that
stored value afterwards. -/
theorem C2_cell_value_parse_and_clamp (s : BudgetState) (rowId : String)
    (month : Month) (value : String) (hid : rowId ∈ s.rows.map SheetRow.id) :
    ((jsParseFloat value = .nan ∨ jsParseFloat value = .infinite) →
        storedValue value = 0) ∧
    (∀ q : ℚ, jsParseFloat value = .finite q → q < 0 → storedValue value = 0) ∧
    (∀ q : ℚ, jsParseFloat value = .finite q → 0 ≤ q → storedValue value = q) ∧
    0 ≤ storedValue value ∧
    (∀ row ∈ (handleChange s rowId month value).rows,
        row.id = rowId → row.values month = some (storedValue value)) ∧
    (∃ row ∈ (handleChange s rowId month value).rows,
        row.id = rowId ∧ row.values month = some (storedValue value)) := by
  refine ⟨?_, ?_, ?_, ?_, ?_, ?_⟩
  · rintro (h | h) <;> simp [storedValue, h]
  · intro q hq hneg
    simp [storedValue, hq, max_eq_right hneg.le]
  · intro q hq hpos
    simp [storedValue, hq, max_eq_left hpos]
  · exact storedValue_nonneg value
  · intro row hrow hrid
    simp only [handleChange, List.mem_map] at hrow
    rcases hrow with ⟨row0, hmem0, hrow0⟩
    by_cases h0 : row0.id = rowId
    · simp only [h0, if_pos rfl] at hrow0
      subst hrow0
      simp
    · simp only [if_neg h0] at hrow0
      subst hrow0
      exact absurd hrid h0
  · rcases List.mem_map.mp hid with ⟨row0, hmem0, hid0⟩
    refine ⟨{ row0 with values := fun m =>
        if m = month then some (storedValue value) else row0.values m }, ?_, hid0, by simp⟩
    simp only [handleChange, List.mem_map]
    exact ⟨row0, hmem0, by simp [hid0]⟩

/-- Witness for C2 on the template state: the row id `rent` is present, and
editing its January cell with the non-numeric text `abc` stores `0`. -/
theorem C2_witness :
    ("rent" ∈ initialState.rows.map SheetRow.id) ∧
    (((jsParseFloat "abc" = .nan ∨ jsParseFloat "abc" = .infinite) →
        storedValue "abc" = 0) ∧
    (∀ q : ℚ, jsParseFloat "abc" = .finite q → q < 0 → storedValue "abc" = 0) ∧
    (∀ q : ℚ, jsParseFloat "abc" = .finite q → 0 ≤ q → storedValue "abc" = q) ∧
    0 ≤ storedValue "abc" ∧
    (∀ row ∈ (handleChange initialState "rent" .jan "abc").rows,
        row.id = "rent" → row.values .jan = some (storedValue "abc")) ∧
    (∃ row ∈ (handleChange initialState "rent" .jan "abc").rows,
        row.id = "rent" ∧ row.values .jan = some (storedValue "abc"))) := by
  have h : "rent" ∈ initialState.rows.map SheetRow.id := by
    simp [initialState, defaultRows, cloneRows]
  exact ⟨h, C2_cell_value_parse_and_clamp initialState "rent" .jan "abc" h⟩

/-- C3: `setCellValue` changes at most the targeted row's targeted month
value; the currency, the row count and order, every row's id, label and type,
the other eleven month values of the targeted row, and every row whose id
differs are all unchanged. -/
theorem C3_cell_value_frame (s : BudgetState) (rowId : String) (month : Month)
    (value : String) :
    (handleChange s rowId month value).currency = s.currency ∧
    (handleChange s rowId month value).rows.length = s.rows.length ∧
    (∀ i : Nat, ∀ row row' : SheetRow,
      s.rows[i]? = some row →
      (handleChange s rowId month value).rows[i]? = some row' →
      row'.id = row.id ∧ row'.label = row.label ∧ row'.type = row.type ∧
      (∀ m : Month, m ≠ month → row'.values m = row.values m) ∧
      (row.id ≠ rowId → row' = row)) := by
  refine ⟨rfl, by simp [handleChange], ?_⟩
  intro i row row' hrow hrow'
  simp only [handleChange, List.getElem?_map, hrow, Option.map_some'] at hrow'
  by_cases h0 : row.id = rowId
  · simp only [if_pos h0, Option.some_inj] at hrow'
    subst hrow'
    refine ⟨rfl, rfl, rfl, ?_, fun hne => absurd h0 hne⟩
    intro m hm
    simp [if_neg hm]
  · simp only [if_neg h0, Option.some_inj] at hrow'
    subst hrow'
    exact ⟨rfl, rfl, rfl, fun _ _ => rfl, fun _ => rfl⟩

/-- Witness for C3 on the template state: editing the `rent` row's January
cell leaves the currency, the row count, and the groceries row (index 3)
untouched. -/
theorem C3_witness :
    (handleChange initialState "rent" .jan "42").currency = initialState.currency ∧
    (handleChange initialState "rent" .jan "42").rows.length = initialState.rows.length ∧
    (∀ i : Nat, ∀ row row' : SheetRow,
      initialState.rows[i]? = some row →
      (handleChange initialState "rent" .jan "42").rows[i]? = some row' →
      row'.id = row.id ∧ row'.label = row.label ∧ row'.type = row.type ∧
      (∀ m : Month, m ≠ .jan → row'.values m = row.values m) ∧
      (row.id ≠ "rent" → row' = row)) :=
  C3_cell_value_frame initialState "rent" .jan "42"

/-- C10: `setCellValue` with a row id matching no row returns the state
unchanged. -/
theorem C10_cell_value_unknown_id_noop (s : BudgetState) (rowId : String)
    (month : Month) (value : String) (h : ∀ row ∈ s.rows, row.id ≠ rowId) :
    handleChange s rowId month value = s := by
  have hmap : (s.rows.map fun row =>
      if row.id = rowId then
        { row with values := fun m =>
            if m = month then some (storedValue value) else row.values m }
      else row) = s.rows := by
    conv_rhs => rw [← List.map_id s.rows]
    exact List.map_congr_left fun row hrow => by simp [if_neg (h row hrow)]
  show { s with rows := _ } = s
  rw [hmap]

/-- Witness for C10: no template row has id `missing`, and editing that id
leaves the template state intact. -/
theorem C10_witness :
    (∀ row ∈ initialState.rows, row.id ≠ "missing") ∧
    handleChange initialState "missing" .jan "42" = initialState := by
  have h : ∀ row ∈ initialState.rows, row.id ≠ "missing" := by
    simp [initialState, defaultRows, cloneRows]
  exact ⟨h, C10_cell_value_unknown_id_noop initialState "missing" .jan "42" h⟩

/-- C5: `addRow` with an absent or empty label is a no-op; with a non-empty
label it appends exactly one row at the end, with the given type and all 12
month values `0`, leaving the existing rows and the currency unchanged. -/
theorem C5_addRow_append_or_noop (s : BudgetState) (type : CategoryType)
    (label : Option String) (newId : String) :
    ((label = none ∨ label = some "") → addRow s type label newId = s) ∧
    (∀ l : String, label = some l → l ≠ "" →
      (addRow s type label newId).rows =
        s.rows ++ [{ id := newId, label := l.trim, type := type,
                     values := createZeroValues }] ∧
      (addRow s type label newId).rows.length = s.rows.length + 1 ∧
      (addRow s type label newId).rows.take s.rows.length = s.rows ∧
      (addRow s type label newId).currency = s.currency ∧
      (∀ m : Month, createZeroValues m = some 0)) := by
  constructor
  · rintro (h | h) <;> simp [addRow, h]
  · intro l hl hne
    subst hl
    refine ⟨by simp [addRow, hne], by simp [addRow, hne], ?_, by simp [addRow, hne],
      fun m => rfl⟩
    simp [addRow, hne, List.take_append_of_le_length (le_refl s.rows.length)]

/-- Witness for C5 on the template state: the empty label leaves the 8 rows
alone, while the label `Gym` appends a ninth all-zero expense row. -/
theorem C5_witness :
    (addRow initialState .expense (some "") "fresh-id" = initialState) ∧
    ((addRow initialState .expense (some "Gym") "fresh-id").rows =
      initialState.rows ++ [{ id := "fresh-id", label := "Gym".trim, type := .expense,
                              values := createZeroValues }]) ∧
    (addRow initialState .expense (some "Gym") "fresh-id").rows.length =
      initialState.rows.length + 1 := by
  have h1 := (C5_addRow_append_or_noop initialState .expense (some "") "fresh-id").1
    (Or.inr rfl)
  have h2 := (C5_addRow_append_or_noop initialState .expense (some "Gym") "fresh-id").2
    "Gym" rfl (by decide)
  exact ⟨h1, h2.1, h2.2.1⟩

/-- C8: the savings rate is `annualSavings / annualIncome × 100` whenever the
annual income is nonzero, and is `0` when the annual income is `0`; the
definition is total, so no division-by-zero error can arise. -/
theorem C8_savings_rate_guard (s : BudgetState) :
    (annualIncome s.rows ≠ 0 →
      savingsRate s.rows = annualSavings s.rows / annualIncome s.rows * 100) ∧
    (annualIncome s.rows = 0 → savingsRate s.rows = 0) := by
  constructor
  · intro h
    simp [savingsRate, h]
  · intro h
    simp [savingsRate, h]

/-- Witness for C8: a one-row income state has nonzero annual income, and a
state with no rows has annual income `0` and savings rate `0`. -/
theorem C8_witness :
    annualIncome (BudgetState.mk
      [{ id := "a", label := "A", type := .income, values := fun _ => some 1 }]
      "USD").rows ≠ 0 ∧
    savingsRate (BudgetState.mk
      [{ id := "a", label := "A", type := .income, values := fun _ => some 1 }]
      "USD").rows =
      annualSavings (BudgetState.mk
        [{ id := "a", label := "A", type := .income, values := fun _ => some 1 }]
        "USD").rows /
        annualIncome (BudgetState.mk
          [{ id := "a", label := "A", type := .income, values := fun _ => some 1 }]
          "USD").rows * 100 ∧
    annualIncome (BudgetState.mk [] "USD").rows = 0 ∧
    savingsRate (BudgetState.mk [] "USD").rows = 0 := by
  have h1 : annualIncome (BudgetState.mk
      [{ id := "a", label := "A", type := .income, values := fun _ => some 1 }]
      "USD").rows ≠ 0 := by
    simp [annualIncome, annualOf, MONTHS, monthlyIncome, totalFor]
    norm_num
  have h2 : annualIncome (BudgetState.mk [] "USD").rows = 0 := by
    simp [annualIncome, annualOf, MONTHS, monthlyIncome, totalFor]
  exact ⟨h1, (C8_savings_rate_guard _).1 h1, h2,
    (C8_savings_rate_guard (BudgetState.mk [] "USD")).2 h2⟩

/-- C9: the restore path reports the persisted state as absent — leaving the
startup (template) state in place, raising no error — when the storage key is
absent, when the stored value fails to parse, or when the `rows` or `currency`
field is missing; only a payload with both fields present (and a truthy
currency) is restored. -/
theorem C9_load_tolerates_bad_storage (s : BudgetState) :
    restoreEffect none s = s ∧
    restoreEffect (some .malformed) s = s ∧
    (∀ currency? : Option String,
      restoreEffect (some (.parsed none currency?)) s = s) ∧
    (∀ rows? : Option (List SheetRow),
      restoreEffect (some (.parsed rows? none)) s = s) ∧
    (∀ rs : List SheetRow, ∀ c : String, c ≠ "" →
      restoreEffect (some (.parsed (some rs) (some c))) s =
        { rows := rs, currency := c }) := by
  refine ⟨rfl, rfl, fun c? => rfl, fun rows? => ?_, fun rs c hc => ?_⟩
  · cases rows? <;> rfl
  · simp [restoreEffect, hc, cloneRows]

/-- Witness for C9 on the template state, restoring a concrete one-row
payload with a nonempty currency. -/
theorem C9_witness :
    restoreEffect none initialState = initialState ∧
    restoreEffect (some .malformed) initialState = initialState ∧
    restoreEffect (some (.parsed none (some "EUR"))) initialState = initialState ∧
    restoreEffect (some (.parsed (some [negativeRow]) none)) initialState = initialState ∧
    restoreEffect (some (.parsed (some [negativeRow]) (some "EUR"))) initialState =
      { rows := [negativeRow], currency := "EUR" } := by
  have h := C9_load_tolerates_bad_storage initialState
  exact ⟨h.1, h.2.1, h.2.2.1 (some "EUR"), h.2.2.2.1 (some [negativeRow]),
    h.2.2.2.2 [negativeRow] "EUR" (by decide)⟩

/-- C1: when every row carries all 12 month keys, the monthly net is
`monthlyIncome − monthlyExpense − monthlySavings` for every month, and the
annual net equals `annualIncome − annualExpense − annualSavings`. -/
theorem C1_aggregate_identity (s : BudgetState)
    (_h : ∀ row ∈ s.rows, ∀ m : Month, (row.values m).isSome) :
    (∀ m : Month, monthlyNet s.rows m =
      monthlyIncome s.rows m - monthlyExpense s.rows m - monthlySavings s.rows m) ∧
    annualNet s.rows =
      annualIncome s.rows - annualExpense s.rows - annualSavings s.rows := by
  refine ⟨fun m => rfl, ?_⟩
  simp only [annualNet, annualIncome, annualExpense, annualSavings, annualOf,
    monthlyNet, MONTHS, List.map_cons, List.map_nil, List.sum_cons, List.sum_nil]
  ring

/-- Witness for C1 on the template state (all 96 cells present). -/
theorem C1_witness :
    (∀ row ∈ initialState.rows, ∀ m : Month, (row.values m).isSome) ∧
    annualNet initialState.rows =
      annualIncome initialState.rows - annualExpense initialState.rows -
        annualSavings initialState.rows := by
  have h : ∀ row ∈ initialState.rows, ∀ m : Month, (row.values m).isSome := by decide
  exact ⟨h, (C1_aggregate_identity initialState h).2⟩

/-- C7: the confirmed reset always yields exactly the 8 default template rows
with currency `USD` and clears the persisted storage; the template values obey
the zig-zag rule `max 0 (round (base + drift))` with drift `−variation/2` at
even month index and `+variation/2` at odd index, so the Housing & Rent row
(base 1850, variation 20) holds 1840 in January and 1860 in February. -/
theorem C7_reset_template (s : BudgetState) (st : Storage) :
    (reset s st).1.rows.length = 8 ∧
    (reset s st).1.currency = "USD" ∧
    (reset s st).2 = none ∧
    (reset s st).1.rows = defaultRows ∧
    (∀ base variation : ℚ, ∀ m : Month,
      createBlankValues base variation m = some
        ((max 0 (round (base +
          (if m.index % 2 = 0 then -(variation / 2) else variation / 2))) : ℤ) : ℚ)) ∧
    (∃ row ∈ (reset s st).1.rows, row.label = "Housing & Rent" ∧
      row.values .jan = some 1840 ∧ row.values .feb = some 1860) := by
  refine ⟨rfl, rfl, rfl, rfl, ?_, ?_⟩
  · intro base variation m
    by_cases h : m.index % 2 = 0 <;> simp [createBlankValues, h] <;> ring_nf
  · refine ⟨{ id := "rent", label := "Housing & Rent", type := .expense,
              values := createBlankValues 1850 20 }, ?_, rfl, ?_, ?_⟩
    · simp [reset, cloneRows, defaultRows]
    · simp only [createBlankValues, Month.index]
      norm_num [round_eq]
    · simp only [createBlankValues, Month.index]
      norm_num [round_eq]

/-- C4 fails as stated: a restore is reachable for every content of the
persistent store, and a well-formed payload (both fields present) may carry a
negative amount, which the restore effect copies verbatim; the resulting
reachable state violates the invariant. -/
theorem C4_counterexample :
    ¬ (∀ s : BudgetState, Reachable s → StateOk s) := by
  intro hall
  have hreach : Reachable negativeState :=
    Reachable.restore (some (.parsed (some [negativeRow]) (some "USD"))) Reachable.init
  have hmem : negativeRow ∈ negativeState.rows := by
    simp [negativeState, restoreEffect, cloneRows]
  rcases hall negativeState hreach negativeRow hmem .jan with ⟨q, hq, hq0⟩
  have hq5 : q = -5 := by
    simpa [negativeRow] using hq.symm
  rw [hq5] at hq0
  norm_num at hq0

/-- C4 amended: in every state reachable from the initial template by
`setCellValue`, `addRow`, `removeRow`, `resetToTemplate`, `setCurrency`, and
restores whose persisted rows themselves satisfy the invariant, every row's
values mapping contains all 12 month keys and every amount is non-negative. -/
theorem C4_amended_invariant (s : BudgetState) (h : ReachableValid s) :
    StateOk s := by
  induction h with
  | init =>
    intro row hrow
    exact defaultRows_ok row hrow
  | restore st hst _ ih =>
    rcases st with _ | st
    · exact ih
    rcases st with _ | ⟨rows?, currency?⟩
    · exact ih
    rcases rows? with _ | rs
    · exact ih
    rcases currency? with _ | c
    · exact ih
    simp only [restoreEffect]
    by_cases hc : c = ""
    · simpa [hc] using ih
    · simp only [if_neg hc]
      exact hst
  | cell rowId month value _ ih =>
    intro row hrow
    simp only [handleChange, List.mem_map] at hrow
    rcases hrow with ⟨row0, hmem0, hrow0⟩
    by_cases h0 : row0.id = rowId
    · simp only [h0, if_pos rfl] at hrow0
      subst hrow0
      intro m
      by_cases hm : m = month
      · exact ⟨storedValue value, by simp [hm], storedValue_nonneg value⟩
      · simpa [hm] using ih row0 hmem0 m
    · simp only [if_neg h0] at hrow0
      subst hrow0
      exact ih row0 hmem0
  | add type label newId _ ih =>
    rcases label with _ | l
    · exact ih
    simp only [addRow]
    by_cases hl : l = ""
    · simpa [hl] using ih
    · simp only [if_neg hl]
      intro row hrow
      rcases List.mem_append.mp hrow with hrow | hrow
      · exact ih row hrow
      · simp only [List.mem_singleton] at hrow
        subst hrow
        exact createZeroValues_ok
  | remove rowId _ ih =>
    intro row hrow
    exact ih row (List.mem_of_mem_filter hrow)
  | resetOp st _ _ =>
    intro row hrow
    exact defaultRows_ok row hrow
  | currency code _ ih =>
    exact ih

/-- Witness for the amended C4: the initial template state is reachable and
satisfies the invariant. -/
theorem C4_witness : StateOk initialState :=
  C4_amended_invariant initialState ReachableValid.init

/-- The descending comparator is transitive. -/
lemma expenseLE_trans (a b c : LabeledTotal)
    (hab : expenseLE a b = true) (hbc : expenseLE b c = true) :
    expenseLE a c = true := by
  simp only [expenseLE, decide_eq_true_eq] at *
  exact le_trans hbc hab

/-- The descending comparator is total. -/
lemma expenseLE_total (a b : LabeledTotal) :
    (expenseLE a b || expenseLE b a) = true := by
  simp only [expenseLE, Bool.or_eq_true, decide_eq_true_eq]
  exact le_total b.total a.total

/-- The head of the stable descending sort of `l` is the first element of `l`
attaining the maximal total: everything in `l` is no larger, and everything
before it in `l` is strictly smaller. -/
lemma head_mergeSort_firstMax (l : List LabeledTotal) (x : LabeledTotal)
    (hx : (l.mergeSort expenseLE).head? = some x) :
    (∀ y ∈ l, y.total ≤ x.total) ∧
    ∃ pre post, l = pre ++ x :: post ∧ ∀ y ∈ pre, y.total < x.total := by
  rcases List.head?_eq_some_iff.mp hx with ⟨rest, hsort⟩
  have hperm : (l.mergeSort expenseLE).Perm l := List.mergeSort_perm l expenseLE
  have hpair := List.sorted_mergeSort expenseLE_trans expenseLE_total l
  rw [hsort] at hperm hpair
  have hrest : ∀ b ∈ rest, b.total ≤ x.total := by
    intro b hb
    have := (List.pairwise_cons.mp hpair).1 b hb
    simpa only [expenseLE, decide_eq_true_eq] using this
  have hmax : ∀ y ∈ l, y.total ≤ x.total := by
    intro y hy
    rcases List.mem_cons.mp (hperm.mem_iff.mpr hy) with rfl | hy'
    · exact le_refl _
    · exact hrest y hy'
  refine ⟨hmax, ?_⟩
  set P : LabeledTotal → Bool := fun y => decide (x.total ≤ y.total) with hP
  have hPmem : ∀ a ∈ l.filter P, a.total = x.total := by
    intro a ha
    rcases List.mem_filter.mp ha with ⟨hal, hPa⟩
    exact le_antisymm (hmax a hal) (by simpa [hP] using hPa)
  have hc_pair : List.Pairwise (fun a b => expenseLE a b = true) (l.filter P) := by
    refine List.pairwise_of_forall_mem_list ?_
    intro a ha b hb
    simp only [expenseLE, decide_eq_true_eq]
    rw [hPmem a ha, hPmem b hb]
  have hsub : (l.filter P).Sublist (l.mergeSort expenseLE) :=
    List.sublist_mergeSort expenseLE_trans expenseLE_total hc_pair (List.filter_sublist l)
  have hsub2 : (l.filter P).Sublist ((l.mergeSort expenseLE).filter P) := by
    have := List.Sublist.filter P hsub
    rwa [List.filter_filter, show (fun a => P a && P a) = P from funext fun a => Bool.and_self _]
      at this
  have hlen : ((l.mergeSort expenseLE).filter P).length = (l.filter P).length :=
    (List.Perm.filter P (List.mergeSort_perm l expenseLE)).length_eq
  have hfeq : l.filter P = (l.mergeSort expenseLE).filter P :=
    hsub2.eq_of_length hlen.symm
  have hPx : P x = true := by simp [hP]
  rw [hsort, List.filter_cons_of_pos hPx] at hfeq
  rcases List.filter_eq_cons_iff.mp hfeq with ⟨pre, post, hdecomp, hpre, _, _⟩
  refine ⟨pre, post, hdecomp, ?_⟩
  intro y hy
  have := hpre y hy
  simp only [hP, decide_eq_true_eq] at this
  exact lt_of_not_le this

/-- C6: the largest-expense aggregate is `none` exactly when there is no
expense-type row; when it returns an entry, that entry is one of the expense
entries, its annual total is maximal among them, and every expense entry
occurring earlier in row order has a strictly smaller total (ties go to the
first occurrence, since the JavaScript sort is stable). -/
theorem C6_largest_expense (rows : List SheetRow) :
    (highestExpense rows = none ↔
      rows.filter (fun row => decide (row.type = .expense)) = []) ∧
    (∀ x : LabeledTotal, highestExpense rows = some x →
      x ∈ expenseEntries rows ∧
      (∀ y ∈ expenseEntries rows, y.total ≤ x.total) ∧
      ∃ pre post, expenseEntries rows = pre ++ x :: post ∧
        ∀ y ∈ pre, y.total < x.total) := by
  constructor
  · unfold highestExpense
    rw [List.head?_eq_none_iff]
    constructor
    · intro h
      have hperm := List.mergeSort_perm (expenseEntries rows) expenseLE
      rw [h] at hperm
      have hnil : expenseEntries rows = [] := (hperm.symm).eq_nil
      exact List.map_eq_nil_iff.mp hnil
    · intro h
      unfold expenseEntries
      rw [h]
      simp [List.mergeSort_nil]
  · intro x hx
    have h := head_mergeSort_firstMax (expenseEntries rows) x hx
    rcases h.2 with ⟨pre, post, hdecomp, hpre⟩
    refine ⟨?_, h.1, pre, post, hdecomp, hpre⟩
    rw [hdecomp]
    exact List.mem_append.mpr (Or.inr (List.mem_cons_self x post))

/-- Witness for C6: for a single all-100 expense row the aggregate is the
`Rent` entry with annual total 1200, and the characterization holds for it. -/
theorem C6_witness :
    highestExpense
      [{ id := "r", label := "Rent", type := .expense, values := fun _ => some 100 }] =
      some { label := "Rent", total := 1200 } ∧
    ({ label := "Rent", total := 1200 } : LabeledTotal) ∈ expenseEntries
      [{ id := "r", label := "Rent", type := .expense, values := fun _ => some 100 }] ∧
    (∀ y ∈ expenseEntries
      [{ id := "r", label := "Rent", type := .expense, values := fun _ => some 100 }],
      y.total ≤ ({ label := "Rent", total := 1200 } : LabeledTotal).total) ∧
    ∃ pre post, expenseEntries
      [{ id := "r", label := "Rent", type := .expense, values := fun _ => some 100 }] =
        pre ++ ({ label := "Rent", total := 1200 } : LabeledTotal) :: post ∧
      ∀ y ∈ pre, y.total < ({ label := "Rent", total := 1200 } : LabeledTotal).total := by
  have hx : highestExpense
      [{ id := "r", label := "Rent", type := .expense, values := fun _ => some 100 }] =
      some { label := "Rent", total := 1200 } := by
    simp only [highestExpense, expenseEntries, sumRecord, MONTHS, List.filter_cons,
      List.filter_nil, List.filterMap_cons, List.filterMap_nil, List.map_cons,
      List.map_nil, List.sum_cons, List.sum_nil, decide_True, if_true]
    norm_num [List.mergeSort_singleton]
  exact ⟨hx,
    (C6_largest_expense
      [{ id := "r", label := "Rent", type := .expense, values := fun _ => some 100 }]).2
      { label := "Rent", total := 1200 } hx⟩

end FinanceSheet
